import Mathlib

/-
Verification of the ngrok-operator reconciliation driver (store package) and the
TLSEdge controller delete path.

The Go source is shallowly embedded below:
  * Go maps are modelled as association lists with replace-on-insert semantics
    (`alInsert` / `alLookup` / `alErase`); key uniqueness is an invariant of the
    insert operation, matching Go map semantics up to iteration order.
  * Go `int32` ports are modelled as `Int`.
  * Fallible Go functions returning `(..., error)` are modelled with `Except Unit`
    (the message text of errors is irrelevant to every claim).
  * The `k8s.ngrok.com/app-protocols` service annotation is modelled in its
    JSON-parsed form (`Option (List (String × String))`, `none` meaning the
    annotation is absent or empty); the JSON-unmarshal failure branch of
    `getPortAnnotatedProtocol` is not modelled.
  * The store (`Storer`) implementation is not part of the given sources; its
    `ListNgrokIngressesV1` / `GetServiceV1` / `GetNgrokModuleSetV1` /
    `GetNgrokTrafficPolicyV1` views are modelled as lists carried in `Store`,
    with get-by-name-and-namespace returning the first (unique) match.
  * The gateway-API half of the driver is not exercised by any claim; the
    embedding models the driver with `gatewayEnabled = false`, the default set
    by `NewDriver`.
-/

/-! ## Generic association lists (Go `map` model) -/

/-- Go map insertion: replace the value at an existing key, or append the binding. -/
def alInsert {α β : Type} [DecidableEq α] (m : List (α × β)) (k : α) (v : β) :
    List (α × β) :=
  match m with
  | [] => [(k, v)]
  | (ka, va) :: rest =>
    if ka = k then (k, v) :: rest else (ka, va) :: alInsert rest k v

/-- Go map lookup: the value at a key, if present. -/
def alLookup {α β : Type} [DecidableEq α] (m : List (α × β)) (k : α) : Option β :=
  match m with
  | [] => none
  | (ka, va) :: rest => if ka = k then some va else alLookup rest k

/-- Go `delete(m, k)`: drop every binding of the key. -/
def alErase {α β : Type} [DecidableEq α] (m : List (α × β)) (k : α) : List (α × β) :=
  match m with
  | [] => []
  | (ka, va) :: rest => if ka = k then alErase rest k else (ka, va) :: alErase rest k

/-- Keys of an association list. -/
def alKeys {α β : Type} (m : List (α × β)) : List α := m.map (fun kv => kv.1)

/-! ## Sync debouncer (`Driver.syncStart` / `Driver.syncDone`)

The two single-slot waiter channels `syncFullCh` / `syncPartialCh` are modelled
as `Option Unit` (`none` = the Go channel is nil, `some ()` = a waiter group is
queued on a live channel); `syncRunning` is the running flag. -/

structure SyncState where
  running : Bool
  chFull : Option Unit
  chPart : Option Unit
deriving DecidableEq, Repr

/-- Driver construction leaves the debouncer idle: not running, both channels nil. -/
def initialSyncState : SyncState := { running := false, chFull := none, chPart := none }

/-- Embedding of `Driver.syncStart`: the first caller proceeds; a later caller
either piggybacks on a queued full sync (partial request while a full waiter is
queued), or overtakes the queued waiters of both kinds and queues itself on a
fresh channel of its own kind. Returns (proceed, new state). -/
def syncStart (part : Bool) (s : SyncState) : Bool × SyncState :=
  if s.running = false then
    (true, { s with running := true })
  else if s.chFull.isSome ∧ part = true then
    (false, s)
  else
    (false, { running := s.running,
              chFull := if part then none else some (),
              chPart := if part then some () else none })

/-- The waiter groups that `Driver.syncDone` delivers the `errSyncDone` sentinel to:
the full channel if non-nil, then the partial channel if non-nil. -/
inductive WakeGroup where
  | full
  | part
deriving DecidableEq, Repr

/-- Embedding of `Driver.syncDone`: send the sentinel to every non-nil waiter
channel, close and nil both channels, clear the running flag. The first
component lists the waiter groups that received the sentinel. -/
def syncDoneRun (s : SyncState) : List WakeGroup × SyncState :=
  ((if s.chFull.isSome then [WakeGroup.full] else []) ++
   (if s.chPart.isSome then [WakeGroup.part] else []),
   { running := false, chFull := none, chPart := none })

/-- Events of the debouncer state machine. -/
inductive SyncEv where
  | start (part : Bool)
  | done
deriving DecidableEq, Repr

/-- State reached after one debouncer event. -/
def syncStep (s : SyncState) : SyncEv → SyncState
  | SyncEv.start p => (syncStart p s).2
  | SyncEv.done => (syncDoneRun s).2

/-- State reached from the initial driver state by a sequence of
`syncStart` / `syncDone` calls. -/
def runSync (evs : List SyncEv) : SyncState :=
  evs.foldl syncStep initialSyncState

/-- Debouncer invariant: at most one waiter channel is non-nil, and when no sync
is running both channels are nil. -/
def SyncInv (s : SyncState) : Prop :=
  (s.chFull = none ∨ s.chPart = none) ∧
  (s.running = false → s.chFull = none ∧ s.chPart = none)

/-! ## Data model (api types, ingress-side world of the driver) -/

/-- Subset of `metav1.OwnerReference` populated by the tunnel calculators. -/
structure OwnerReference where
  apiVersion : String
  kind : String
  name : String
  uid : String
deriving DecidableEq, Repr

/-- Subset of `corev1.ServicePort` read by the driver. -/
structure ServicePort where
  name : String
  port : Int
  appProtocol : Option String
deriving DecidableEq, Repr

/-- Subset of `corev1.Service` read by the driver. `appProtocols` is the
JSON-parsed content of the `k8s.ngrok.com/app-protocols` annotation (`none` when
the annotation is absent or the empty string). -/
structure Service where
  name : String
  namesp : String
  uid : String
  appProtocols : Option (List (String × String))
  ports : List ServicePort
deriving DecidableEq, Repr

/-- `netv1.ServiceBackendPort`: a backend port selected by number or by name. -/
structure ServiceBackendPort where
  name : String
  number : Int
deriving DecidableEq, Repr

/-- `netv1.IngressServiceBackend`. -/
structure IngressServiceBackend where
  name : String
  port : ServiceBackendPort
deriving DecidableEq, Repr

/-- `netv1.HTTPIngressPath`; `backend = none` models a non-service (resource)
backend, which the driver skips. `pathType` carries the k8s string constants
`Prefix` / `Exact` / `ImplementationSpecific` (or an unknown value). -/
structure HTTPIngressPath where
  path : String
  pathType : Option String
  backend : Option IngressServiceBackend
deriving DecidableEq, Repr

/-- `netv1.IngressRule` restricted to what the driver reads (`rule.Host` and
`rule.HTTP.Paths`). -/
structure IngressRule where
  host : String
  paths : List HTTPIngressPath
deriving DecidableEq, Repr

/-- Subset of `netv1.Ingress` read by the driver. `moduleSets` is the parsed
module-set annotation (list of `NgrokModuleSet` names), `trafficPolicy` the
parsed traffic-policy annotation (a `NgrokTrafficPolicy` name);
`lbHostnames` is `Status.LoadBalancer.Ingress` reduced to its hostnames. -/
structure Ingress where
  name : String
  namesp : String
  uid : String
  apiVersion : String
  kind : String
  rules : List IngressRule
  moduleSets : Option (List String)
  trafficPolicy : Option String
  lbHostnames : List String
deriving DecidableEq, Repr

/-- `ingressv1alpha1.DomainSpec`. -/
structure DomainSpec where
  domain : String
  metadata : String
deriving DecidableEq, Repr

/-- `ingressv1alpha1.DomainStatus`. -/
structure DomainStatus where
  domain : String
  cnameTarget : Option String
deriving DecidableEq, Repr

/-- `ingressv1alpha1.Domain`. -/
structure Domain where
  name : String
  namesp : String
  spec : DomainSpec
  status : DomainStatus
deriving DecidableEq, Repr

/-- `ingressv1alpha1.HTTPSEdgeRouteSpec`: the path match, the tunnel-group
backend labels, the module fields copied from the resolved module set, the
compiled policy document and the ngrok metadata blob. -/
structure HTTPSEdgeRouteSpec where
  routeMatch : String
  routeMatchType : String
  backendLabels : List (String × String)
  circuitBreaker : Option String
  compression : Option String
  ipRestriction : Option String
  headers : Option String
  oauth : Option String
  policy : Option String
  oidc : Option String
  saml : Option String
  webhookVerification : Option String
  metadata : String
deriving DecidableEq, Repr

/-- `ingressv1alpha1.HTTPSEdgeSpec`. `tlsTermination` models
`EndpointTLSTerminationAtEdge.MinVersion`; `mutualTLS` the mutual-TLS module. -/
structure HTTPSEdgeSpec where
  hostports : List String
  metadata : String
  routes : List HTTPSEdgeRouteSpec
  tlsTermination : Option String
  mutualTLS : Option String
deriving DecidableEq, Repr

/-- `ingressv1alpha1.HTTPSEdge`. -/
structure HTTPSEdge where
  generateName : String
  namesp : String
  labels : List (String × String)
  spec : HTTPSEdgeSpec
deriving DecidableEq, Repr

/-- `ingressv1alpha1.TunnelSpec`; `backendProtocol` is `BackendConfig.Protocol`. -/
structure TunnelSpec where
  forwardsTo : String
  labels : List (String × String)
  backendProtocol : String
  appProtocol : String
deriving DecidableEq, Repr

/-- `ingressv1alpha1.Tunnel`. -/
structure Tunnel where
  generateName : String
  namesp : String
  ownerReferences : List OwnerReference
  labels : List (String × String)
  spec : TunnelSpec
deriving DecidableEq, Repr

/-- Identity key of a tunnel: namespace, backing service name, service port. -/
structure TunnelKey where
  namesp : String
  service : String
  port : String
deriving DecidableEq, Repr

/-- Module fields of `ingressv1alpha1.NgrokModuleSet`, with opaque payloads.
`tlsTerminationMinVersion` collapses `Modules.TLSTermination.MinVersion`
(present only when both pointers are non-nil). -/
structure IngressModules where
  circuitBreaker : Option String
  compression : Option String
  ipRestriction : Option String
  headers : Option String
  oauth : Option String
  oidc : Option String
  saml : Option String
  webhookVerification : Option String
  tlsTerminationMinVersion : Option String
  mutualTLS : Option String
  policy : Option String
deriving DecidableEq, Repr

/-- The zero `NgrokModuleSet` (`computedModSet` before any merge). -/
def emptyModules : IngressModules :=
  { circuitBreaker := none, compression := none, ipRestriction := none,
    headers := none, oauth := none, oidc := none, saml := none,
    webhookVerification := none, tlsTerminationMinVersion := none,
    mutualTLS := none, policy := none }

/-- `ingressv1alpha1.NgrokModuleSet` as stored. -/
structure NgrokModuleSet where
  name : String
  namesp : String
  modules : IngressModules
deriving DecidableEq, Repr

/-- `ngrokv1alpha1.NgrokTrafficPolicy`; `policy` is `Spec.Policy`
(`none` models a nil raw JSON message). -/
structure NgrokTrafficPolicy where
  name : String
  namesp : String
  policy : Option String
deriving DecidableEq, Repr

/-- The driver store views used by the ingress-side calculators:
`ListNgrokIngressesV1`, `GetServiceV1`, `GetNgrokModuleSetV1`,
`GetNgrokTrafficPolicyV1`. -/
structure Store where
  ingresses : List Ingress
  services : List Service
  moduleSets : List NgrokModuleSet
  trafficPolicies : List NgrokTrafficPolicy
deriving DecidableEq, Repr

/-- Driver configuration relevant to the embedded functions: the manager name,
its namespace, the cluster domain and the ingress ngrok metadata blob. -/
structure DriverConfig where
  managerName : String
  managerNamespace : String
  clusterDomain : String
  ingressNgrokMetadata : String
deriving DecidableEq, Repr

/-! ## Label helpers -/

def labelControllerNamespace : String := "k8s.ngrok.com/controller-namespace"

def labelControllerName : String := "k8s.ngrok.com/controller-name"

def labelNamespace : String := "k8s.ngrok.com/namespace"

def labelServiceUID : String := "k8s.ngrok.com/service-uid"

def labelService : String := "k8s.ngrok.com/service"

def labelPort : String := "k8s.ngrok.com/port"

/-- Embedding of `Driver.edgeLabels`. -/
def edgeLabels (cfg : DriverConfig) : List (String × String) :=
  [(labelControllerNamespace, cfg.managerNamespace),
   (labelControllerName, cfg.managerName)]

/-- Embedding of `Driver.tunnelLabels`. -/
def tunnelLabels (cfg : DriverConfig) (serviceName : String) (port : Int) :
    List (String × String) :=
  [(labelControllerNamespace, cfg.managerNamespace),
   (labelControllerName, cfg.managerName),
   (labelService, serviceName),
   (labelPort, toString port)]

/-- Embedding of `Driver.ngrokLabels`. -/
def ngrokLabels (namesp serviceUID serviceName : String) (port : Int) :
    List (String × String) :=
  [(labelNamespace, namesp),
   (labelServiceUID, serviceUID),
   (labelService, serviceName),
   (labelPort, toString port)]

/-- Go `m[k]` on a `map[string]string`: the looked-up value or the zero string. -/
def labelGet (labels : List (String × String)) (k : String) : String :=
  match alLookup labels k with
  | some v => v
  | none => ""

/-! ## Store getters

Modelled from the spec: the `Storer` implementation is outside the given
sources; per the spec the mirror is unique per (kind, namespace, name) and `Get`
signals NotFound distinctly, so each getter returns the first (unique) match. -/

/-- Modelled from the spec: `store.GetServiceV1(name, namespace)`. -/
def getServiceV1 (services : List Service) (name namesp : String) : Option Service :=
  services.find? (fun s => s.name = name ∧ s.namesp = namesp)

/-- Modelled from the spec: `store.GetNgrokModuleSetV1(name, namespace)`. -/
def getNgrokModuleSetV1 (sets : List NgrokModuleSet) (name namesp : String) :
    Option NgrokModuleSet :=
  sets.find? (fun s => s.name = name ∧ s.namesp = namesp)

/-- Modelled from the spec: `store.GetNgrokTrafficPolicyV1(name, namespace)`. -/
def getNgrokTrafficPolicyV1 (ps : List NgrokTrafficPolicy) (name namesp : String) :
    Option NgrokTrafficPolicy :=
  ps.find? (fun p => p.name = name ∧ p.namesp = namesp)

/-! ## Backend resolution (`Driver.findServicesPort` and friends) -/

/-- Embedding of `Driver.findServicesPort`: first service port matching the
backend port by positive number or by name. -/
def findServicesPort (service : Service) (bp : ServiceBackendPort) :
    Except Unit ServicePort :=
  match service.ports.find? (fun port =>
      (bp.number > 0 ∧ port.port = bp.number) ∨ port.name = bp.name) with
  | some port => Except.ok port
  | none => Except.error ()

/-- Embedding of `Driver.findBackendServicePort`. -/
def findBackendServicePort (services : List Service)
    (backendSvc : IngressServiceBackend) (namesp : String) :
    Except Unit (Service × ServicePort) :=
  match getServiceV1 services backendSvc.name namesp with
  | none => Except.error ()
  | some service =>
    match findServicesPort service backendSvc.port with
    | Except.error e => Except.error e
    | Except.ok port => Except.ok (service, port)

/-- Go `strings.ToUpper`, character-wise (the annotation values compared by the
driver are ASCII). -/
def goToUpper (s : String) : String :=
  String.mk (s.data.map Char.toUpper)

/-- Embedding of `Driver.getPortAnnotatedProtocol`: an explicit protocol for a
named port comes from the parsed app-protocols annotation; only HTTP/HTTPS pass
(upper-cased); a missing annotation or missing port name falls back to HTTP. -/
def getPortAnnotatedProtocol (service : Service) (portName : String) :
    Except Unit String :=
  match service.appProtocols with
  | some m =>
    match alLookup m portName with
    | some protocol =>
      let upperProto := goToUpper protocol
      if upperProto = "HTTP" ∨ upperProto = "HTTPS" then Except.ok upperProto
      else Except.error ()
    | none => Except.ok ("HTTP")
  | none => Except.ok ("HTTP")

/-- Embedding of `Driver.getPortAppProtocol`. -/
def getPortAppProtocol (port : ServicePort) : Except Unit String :=
  match port.appProtocol with
  | none => Except.ok ("")
  | some proto =>
    if proto = "k8s.ngrok.com/http2" ∨ proto = "kubernetes.io/h2c" then
      Except.ok ("http2")
    else if proto = "" then Except.ok ("")
    else Except.error ()

/-- Embedding of `Driver.getEdgeBackend`: (service UID, service port). -/
def getEdgeBackend (services : List Service) (backendSvc : IngressServiceBackend)
    (namesp : String) : Except Unit (String × Int) :=
  match findBackendServicePort services backendSvc namesp with
  | Except.error e => Except.error e
  | Except.ok (service, port) => Except.ok (service.uid, port.port)

/-- Embedding of `Driver.getTunnelBackend`:
(service UID, service port, protocol, app protocol). -/
def getTunnelBackend (services : List Service) (backendSvc : IngressServiceBackend)
    (namesp : String) : Except Unit (String × Int × String × String) :=
  match findBackendServicePort services backendSvc namesp with
  | Except.error e => Except.error e
  | Except.ok (service, port) =>
    match getPortAnnotatedProtocol service port.name with
    | Except.error e => Except.error e
    | Except.ok protocol =>
      match getPortAppProtocol port with
      | Except.error e => Except.error e
      | Except.ok appProtocol =>
        Except.ok (service.uid, port.port, protocol, appProtocol)

/-! ## Domain calculator -/

/-- Modelled from the spec: `ingressv1alpha1.HyphenatedDomainNameFromURL` lives
in the api package outside the given sources; it derives a resource name from a
hostname (here: dots replaced by hyphens). No claim depends on its exact form. -/
def hyphenatedDomainNameFromURL (url : String) : String :=
  url.map (fun c => if c = '.' then '-' else c)

/-- The `ingressv1alpha1.Domain` built by `calculateDomainsFromIngress` for one
rule host of one ingress. -/
def mkIngressDomain (cfg : DriverConfig) (ing : Ingress) (host : String) : Domain :=
  { name := hyphenatedDomainNameFromURL host,
    namesp := ing.namesp,
    spec := { domain := host, metadata := cfg.ingressNgrokMetadata },
    status := { domain := "", cnameTarget := none } }

/-- One rule worth of `Driver.calculateDomainsFromIngress`: skip an empty rule
host, otherwise insert the domain for the host into the host-keyed map. -/
def domainFoldStep (cfg : DriverConfig) (ing : Ingress)
    (m : List (String × Domain)) (rule : IngressRule) : List (String × Domain) :=
  if rule.host = "" then m
  else alInsert m rule.host (mkIngressDomain cfg ing rule.host)

/-- One ingress worth of `Driver.calculateDomainsFromIngress`: fold its rules
into the host-keyed domain map. -/
def calcDomainsOfIngress (cfg : DriverConfig) (m : List (String × Domain))
    (ing : Ingress) : List (String × Domain) :=
  ing.rules.foldl (domainFoldStep cfg ing) m

/-- Embedding of `Driver.calculateDomainsFromIngress`: the host-keyed map of
desired domains over all tracked ngrok ingresses. -/
def calculateDomainsFromIngress (cfg : DriverConfig) (ingresses : List Ingress) :
    List (String × Domain) :=
  ingresses.foldl (calcDomainsOfIngress cfg) []

/-- Embedding of `Driver.calculateDomains` with the gateway feature disabled
(the `NewDriver` default): (all desired domains, ingress-derived domains). -/
def calculateDomains (cfg : DriverConfig) (store : Store) :
    List Domain × List Domain :=
  let ingressDomains := (calculateDomainsFromIngress cfg store.ingresses).map
    (fun kv => kv.2)
  (ingressDomains, ingressDomains)

/-! ## Module set and traffic policy resolution -/

/-- Modelled from the spec: `NgrokModuleSet.Merge` lives in the api package
outside the given sources; per the spec annotated module sets are "merged in to
a single moduleset", modelled as a right-biased field-wise merge. No claim depends on it. -/
def mergeModules (a b : IngressModules) : IngressModules :=
  { circuitBreaker := b.circuitBreaker.orElse (fun _ => a.circuitBreaker),
    compression := b.compression.orElse (fun _ => a.compression),
    ipRestriction := b.ipRestriction.orElse (fun _ => a.ipRestriction),
    headers := b.headers.orElse (fun _ => a.headers),
    oauth := b.oauth.orElse (fun _ => a.oauth),
    oidc := b.oidc.orElse (fun _ => a.oidc),
    saml := b.saml.orElse (fun _ => a.saml),
    webhookVerification := b.webhookVerification.orElse
      (fun _ => a.webhookVerification),
    tlsTerminationMinVersion := b.tlsTerminationMinVersion.orElse
      (fun _ => a.tlsTerminationMinVersion),
    mutualTLS := b.mutualTLS.orElse (fun _ => a.mutualTLS),
    policy := b.policy.orElse (fun _ => a.policy) }

/-- Resolution loop of `Driver.getNgrokModuleSetForIngress`: look each annotated
module-set name up in the store (aborting on a missing one) and merge. -/
def resolveModuleSets (store : Store) (namesp : String) :
    List String → IngressModules → Except Unit IngressModules
  | [], acc => Except.ok acc
  | n :: rest, acc =>
    match getNgrokModuleSetV1 store.moduleSets n namesp with
    | none => Except.error ()
    | some ms => resolveModuleSets store namesp rest (mergeModules acc ms.modules)

/-- Embedding of `Driver.getNgrokModuleSetForIngress`: a missing annotation
yields the empty module set; otherwise resolve and merge the named sets. -/
def getNgrokModuleSetForIngress (store : Store) (ing : Ingress) :
    Except Unit IngressModules :=
  match ing.moduleSets with
  | none => Except.ok emptyModules
  | some names => resolveModuleSets store ing.namesp names emptyModules

/-- Embedding of `Driver.getNgrokTrafficPolicyForIngress`. -/
def getNgrokTrafficPolicyForIngress (store : Store) (ing : Ingress) :
    Except Unit (Option NgrokTrafficPolicy) :=
  match ing.trafficPolicy with
  | none => Except.ok none
  | some name =>
    match getNgrokTrafficPolicyV1 store.trafficPolicies name ing.namesp with
    | none => Except.error ()
    | some p => Except.ok (some p)

/-- Go `json.Marshal` of the module-set policy raw message: a nil message
marshals to the four-byte document `null`. -/
def marshalPolicy (p : Option String) : String :=
  match p with
  | some s => s
  | none => "null"

/-- Embedding of `Driver.getTrafficPolicyJSON`: an annotated traffic policy wins
(and conflicts with a module-set policy); otherwise the module-set policy is
marshalled. -/
def getTrafficPolicyJSON (store : Store) (ing : Ingress)
    (modSet : IngressModules) : Except Unit (Option String) :=
  match getNgrokTrafficPolicyForIngress store ing with
  | Except.error e => Except.error e
  | Except.ok trafficPolicy =>
    if modSet.policy.isSome ∧ trafficPolicy.isSome then Except.error ()
    else
      match trafficPolicy with
      | some p => Except.ok p.policy
      | none => Except.ok (some (marshalPolicy modSet.policy))

/-! ## HTTPS edge calculator -/

/-- Match-type mapping of `calculateHTTPSEdgesFromIngress` for a path type:
`none` when the path type is unknown (the path is skipped with a logged error). -/
def matchTypeFor (pathType : Option String) : Option String :=
  match pathType with
  | none => some ("path_prefix")
  | some t =>
    if t = "Prefix" then some ("path_prefix")
    else if t = "Exact" then some ("exact_path")
    else if t = "ImplementationSpecific" then some ("path_prefix")
    else none

/-- The scaffold `HTTPSEdge` that `Driver.calculateHTTPSEdges` creates for each
desired ingress domain. -/
def scaffoldEdge (cfg : DriverConfig) (domain : Domain) : HTTPSEdge :=
  { generateName := domain.name ++ "-",
    namesp := domain.namesp,
    labels := edgeLabels cfg,
    spec := { hostports := [domain.spec.domain ++ ":443"],
              metadata := cfg.ingressNgrokMetadata,
              routes := [],
              tlsTermination := none,
              mutualTLS := none } }

/-- The route record appended by `calculateHTTPSEdgesFromIngress` for one
(rule, path) pair with a resolved service backend. -/
def mkRoute (cfg : DriverConfig) (namesp : String) (path : HTTPIngressPath)
    (routeMatchType serviceUID serviceName : String) (servicePort : Int)
    (modSet : IngressModules) (policyJSON : Option String) : HTTPSEdgeRouteSpec :=
  { routeMatch := path.path,
    routeMatchType := routeMatchType,
    backendLabels := ngrokLabels namesp serviceUID serviceName servicePort,
    circuitBreaker := modSet.circuitBreaker,
    compression := modSet.compression,
    ipRestriction := modSet.ipRestriction,
    headers := modSet.headers,
    oauth := modSet.oauth,
    policy := policyJSON,
    oidc := modSet.oidc,
    saml := modSet.saml,
    webhookVerification := modSet.webhookVerification,
    metadata := cfg.ingressNgrokMetadata }

/-- Per-path step of `calculateHTTPSEdgesFromIngress`: skip unknown path types,
non-service backends and unresolvable backends; otherwise append the route.
The source also scans the existing routes for a duplicate (match, matchType)
pair — the scan only logs and removes nothing, so the append is unconditional. -/
def addPathRoute (cfg : DriverConfig) (store : Store) (ing : Ingress)
    (modSet : IngressModules) (policyJSON : Option String) (edge : HTTPSEdge)
    (path : HTTPIngressPath) : HTTPSEdge :=
  match matchTypeFor path.pathType with
  | none => edge
  | some routeMatchType =>
    match path.backend with
    | none => edge
    | some backendSvc =>
      match getEdgeBackend store.services backendSvc ing.namesp with
      | Except.error _ => edge
      | Except.ok (serviceUID, servicePort) =>
        let route := mkRoute cfg ing.namesp path routeMatchType serviceUID
          backendSvc.name servicePort modSet policyJSON
        { edge with spec :=
            { edge.spec with routes := edge.spec.routes ++ [route] } }

/-- Per-rule step of `calculateHTTPSEdgesFromIngress`: find the edge for the
rule host (skipping the rule otherwise), apply the TLS module settings, append
one route per path, and write the edge back into the map. -/
def addRuleRoutes (cfg : DriverConfig) (store : Store) (ing : Ingress)
    (modSet : IngressModules) (policyJSON : Option String)
    (edgeMap : List (String × HTTPSEdge)) (rule : IngressRule) :
    List (String × HTTPSEdge) :=
  match alLookup edgeMap rule.host with
  | none => edgeMap
  | some edge =>
    let edge :=
      match modSet.tlsTerminationMinVersion with
      | some v => { edge with spec := { edge.spec with tlsTermination := some v } }
      | none => edge
    let edge :=
      match modSet.mutualTLS with
      | some v => { edge with spec := { edge.spec with mutualTLS := some v } }
      | none => edge
    let edge := rule.paths.foldl (addPathRoute cfg store ing modSet policyJSON) edge
    alInsert edgeMap rule.host edge

/-- Per-ingress step of `calculateHTTPSEdgesFromIngress`: resolve the module
set and the policy document (skipping the whole ingress on error), then process
every rule. -/
def addIngressRoutes (cfg : DriverConfig) (store : Store)
    (edgeMap : List (String × HTTPSEdge)) (ing : Ingress) :
    List (String × HTTPSEdge) :=
  match getNgrokModuleSetForIngress store ing with
  | Except.error _ => edgeMap
  | Except.ok modSet =>
    match getTrafficPolicyJSON store ing modSet with
    | Except.error _ => edgeMap
    | Except.ok policyJSON =>
      ing.rules.foldl (addRuleRoutes cfg store ing modSet policyJSON) edgeMap

/-- Embedding of `Driver.calculateHTTPSEdgesFromIngress`. -/
def calculateHTTPSEdgesFromIngress (cfg : DriverConfig) (store : Store)
    (edgeMap : List (String × HTTPSEdge)) : List (String × HTTPSEdge) :=
  store.ingresses.foldl (addIngressRoutes cfg store) edgeMap

/-- Embedding of `Driver.calculateHTTPSEdges` with the gateway feature disabled:
scaffold one edge per ingress domain, then fill in routes from the ingresses. -/
def calculateHTTPSEdges (cfg : DriverConfig) (store : Store)
    (ingressDomains : List Domain) : List (String × HTTPSEdge) :=
  let edgeMap := ingressDomains.foldl
    (fun m domain => alInsert m domain.spec.domain (scaffoldEdge cfg domain)) []
  calculateHTTPSEdgesFromIngress cfg store edgeMap

/-! ## Tunnel calculator -/

/-- The owner reference appended for a contributing ingress. -/
def mkOwnerRef (ing : Ingress) : OwnerReference :=
  { apiVersion := ing.apiVersion, kind := ing.kind, name := ing.name,
    uid := ing.uid }

/-- Lexicographic strict order on character lists, by code point. -/
def charListLt : List Char → List Char → Bool
  | [], [] => false
  | [], _ :: _ => true
  | _ :: _, [] => false
  | a :: as, b :: bs =>
    if a.toNat < b.toNat then true
    else if b.toNat < a.toNat then false
    else charListLt as bs

/-- Model of the non-strict string order underlying `cmp.Compare` on UID
strings (UTF-8 byte order and code-point order agree). -/
def uidLe (a b : String) : Bool := !(charListLt b.data a.data)

/-- Single step of the stable ascending insertion by owner UID. -/
def insertRefByUID (r : OwnerReference) : List OwnerReference → List OwnerReference
  | [] => [r]
  | x :: xs =>
    if uidLe x.uid r.uid then x :: insertRefByUID r xs else r :: x :: xs

/-- Model of `slices.SortStableFunc(refs, cmp.Compare of the UIDs)`: a stable
insertion sort, ascending by owner UID. -/
def sortRefsByUID (refs : List OwnerReference) : List OwnerReference :=
  refs.foldl (fun acc r => insertRefByUID r acc) []

/-- The fresh tunnel built by `calculateTunnelsFromIngress` when the identity
key is not yet present. -/
def mkTunnel (cfg : DriverConfig) (namesp serviceName serviceUID : String)
    (servicePort : Int) (protocol appProtocol : String) : Tunnel :=
  { generateName := serviceName ++ "-" ++ toString servicePort ++ "-",
    namesp := namesp,
    ownerReferences := [],
    labels := tunnelLabels cfg serviceName servicePort,
    spec := { forwardsTo := serviceName ++ "." ++ namesp ++ "." ++
                cfg.clusterDomain ++ ":" ++ toString servicePort,
              labels := ngrokLabels namesp serviceUID serviceName servicePort,
              backendProtocol := protocol,
              appProtocol := appProtocol } }

/-- Per-path step of `Driver.calculateTunnelsFromIngress`: skip non-service
backends; resolve the backend (a resolution error is only logged — the Go code
then continues with the zero values); upsert the tunnel at its identity key,
appending the owner reference if its UID is not yet present and re-sorting. -/
def tunnelPathStep (cfg : DriverConfig) (services : List Service) (ing : Ingress)
    (tunnels : List (TunnelKey × Tunnel)) (path : HTTPIngressPath) :
    List (TunnelKey × Tunnel) :=
  match path.backend with
  | none => tunnels
  | some backendSvc =>
    let resolved :=
      match getTunnelBackend services backendSvc ing.namesp with
      | Except.ok r => r
      | Except.error _ => ("", 0, "", "")
    let serviceUID := resolved.1
    let servicePort := resolved.2.1
    let protocol := resolved.2.2.1
    let appProtocol := resolved.2.2.2
    let key : TunnelKey :=
      { namesp := ing.namesp, service := backendSvc.name,
        port := toString servicePort }
    let tunnel :=
      match alLookup tunnels key with
      | some t => t
      | none => mkTunnel cfg ing.namesp backendSvc.name serviceUID servicePort
          protocol appProtocol
    let tunnel :=
      if tunnel.ownerReferences.any (fun r => r.uid = ing.uid) then tunnel
      else { tunnel with ownerReferences :=
               sortRefsByUID (tunnel.ownerReferences ++ [mkOwnerRef ing]) }
    alInsert tunnels key tunnel

/-- Embedding of `Driver.calculateTunnelsFromIngress`. -/
def calculateTunnelsFromIngress (cfg : DriverConfig) (services : List Service)
    (ingresses : List Ingress) (tunnels : List (TunnelKey × Tunnel)) :
    List (TunnelKey × Tunnel) :=
  ingresses.foldl
    (fun tunnels ing =>
      ing.rules.foldl
        (fun tunnels rule => rule.paths.foldl (tunnelPathStep cfg services ing) tunnels)
        tunnels)
    tunnels

/-- Embedding of `Driver.calculateTunnels` with the gateway feature disabled. -/
def calculateTunnels (cfg : DriverConfig) (store : Store) :
    List (TunnelKey × Tunnel) :=
  calculateTunnelsFromIngress cfg store.services store.ingresses []

/-- Embedding of `Driver.tunnelKeyFromTunnel`. -/
def tunnelKeyFromTunnel (t : Tunnel) : TunnelKey :=
  { namesp := t.namesp, service := labelGet t.labels labelService,
    port := labelGet t.labels labelPort }

/-! ## Apply phase: the backing-store calls issued by a sync pass -/

/-- One call against the backing Kubernetes store, as issued by `Driver.Sync`
and `Driver.SyncEdges`: list calls, per-resource create/update/delete calls and
ingress status writes. -/
inductive ApiOp where
  | listDomains
  | listEdges
  | listTunnels
  | createDomain (d : Domain)
  | updateDomain (d : Domain)
  | deleteDomain (d : Domain)
  | createEdge (e : HTTPSEdge)
  | updateEdge (e : HTTPSEdge)
  | deleteEdge (e : HTTPSEdge)
  | createTunnel (t : Tunnel)
  | updateTunnel (t : Tunnel)
  | deleteTunnel (t : Tunnel)
  | updateIngressStatus (name namesp : String) (hostnames : List String)
deriving DecidableEq, Repr

/-- Edge-directed calls. -/
def isEdgeOp : ApiOp → Bool
  | ApiOp.listEdges => true
  | ApiOp.createEdge _ => true
  | ApiOp.updateEdge _ => true
  | ApiOp.deleteEdge _ => true
  | _ => false

/-- First current domain matching a desired one by name and namespace
(the inner loop of `Driver.applyDomains`). -/
def findDomain (current : List Domain) (name namesp : String) : Option Domain :=
  current.find? (fun c => name = c.name ∧ namesp = c.namesp)

/-- Embedding of `Driver.applyDomains`: for each desired domain, update the
matching current one when the specs differ, or create it when no current domain
matches; absent desired domains trigger nothing — domains are never deleted. -/
def applyDomains (desired current : List Domain) : List ApiOp :=
  match desired with
  | [] => []
  | d :: rest =>
    (match findDomain current d.name d.namesp with
     | some c =>
       if d.spec = c.spec then [] else [ApiOp.updateDomain { c with spec := d.spec }]
     | none => [ApiOp.createDomain d]) ++ applyDomains rest current

/-- Go `strings.TrimSuffix(hp, colon-443)`. -/
def trimHostport (hp : String) : String :=
  if hp.endsWith (":443") then hp.dropRight 4 else hp

/-- The current-edge loop of `Driver.applyHTTPSEdges`, threading the shrinking
desired map and the accumulated calls: a current edge with other than exactly
one hostport is skipped; otherwise it is matched against the desired map by its
trimmed hostport domain and updated (when the specs differ) or deleted. -/
def applyEdgesLoop : List HTTPSEdge → List (String × HTTPSEdge) → List ApiOp →
    List (String × HTTPSEdge) × List ApiOp
  | [], desired, ops => (desired, ops)
  | e :: rest, desired, ops =>
    match e.spec.hostports with
    | [hp] =>
      let domain := trimHostport hp
      match alLookup desired domain with
      | some desiredEdge =>
        let ops :=
          if desiredEdge.spec = e.spec then ops
          else ops ++ [ApiOp.updateEdge { e with spec := desiredEdge.spec }]
        applyEdgesLoop rest (alErase desired domain) ops
      | none => applyEdgesLoop rest desired (ops ++ [ApiOp.deleteEdge e])
    | _ => applyEdgesLoop rest desired ops

/-- Embedding of `Driver.applyHTTPSEdges`: run the current-edge loop, then
create every remaining desired edge. -/
def applyHTTPSEdges (desired : List (String × HTTPSEdge))
    (current : List HTTPSEdge) : List ApiOp :=
  let (remaining, ops) := applyEdgesLoop current desired []
  ops ++ remaining.map (fun kv => ApiOp.createEdge kv.2)

/-- The current-tunnel loop of `Driver.applyTunnels`: match each current tunnel
by its identity key; update when the owner references or the spec differ,
delete when no longer desired. -/
def applyTunnelsLoop : List Tunnel → List (TunnelKey × Tunnel) → List ApiOp →
    List (TunnelKey × Tunnel) × List ApiOp
  | [], desired, ops => (desired, ops)
  | t :: rest, desired, ops =>
    let tkey := tunnelKeyFromTunnel t
    match alLookup desired tkey with
    | some desiredTunnel =>
      let ops :=
        if desiredTunnel.ownerReferences = t.ownerReferences ∧
           desiredTunnel.spec = t.spec then ops
        else ops ++ [ApiOp.updateTunnel
          { t with ownerReferences := desiredTunnel.ownerReferences,
                   spec := desiredTunnel.spec }]
      applyTunnelsLoop rest (alErase desired tkey) ops
    | none => applyTunnelsLoop rest desired (ops ++ [ApiOp.deleteTunnel t])

/-- Embedding of `Driver.applyTunnels`. -/
def applyTunnels (desired : List (TunnelKey × Tunnel)) (current : List Tunnel) :
    List ApiOp :=
  let (remaining, ops) := applyTunnelsLoop current desired []
  ops ++ remaining.map (fun kv => ApiOp.createTunnel kv.2)

/-! ## Ingress load-balancer status -/

/-- Helper of `dedupKeepFirst` carrying the hosts already emitted. -/
def dedupKeepFirstAux (seen : List String) : List String → List String
  | [] => []
  | h :: rest =>
    if h ∈ seen then dedupKeepFirstAux seen rest
    else h :: dedupKeepFirstAux (h :: seen) rest

/-- Deduplication keeping first occurrences, modelling iteration over the
host-keyed set built by `calculateIngressLoadBalancerIPStatus`. -/
def dedupKeepFirst (hosts : List String) : List String :=
  dedupKeepFirstAux [] hosts

/-- Go `strings.TrimPrefix` of the wildcard marker from a managed domain. -/
def trimWildcard (s : String) : String :=
  if s.startsWith ("*.") then s.drop 2 else s

/-- Embedding of `Driver.calculateIngressLoadBalancerIPStatus` given the listed
cluster domains: for every rule host with a matching domain, report the CNAME
target of a custom domain or the managed hostname with any wildcard trimmed;
empty hostnames are dropped. -/
def calculateIngressLoadBalancerIPStatus (ing : Ingress)
    (clusterDomains : List Domain) : List String :=
  let byDomain := clusterDomains.foldl
    (fun m d => alInsert m d.spec.domain d) []
  (dedupKeepFirst (ing.rules.map (fun r => r.host))).filterMap
    (fun host =>
      match alLookup byDomain host with
      | none => none
      | some d =>
        let hostname :=
          match d.status.cnameTarget with
          | some target => target
          | none => trimWildcard d.status.domain
        if hostname = "" then none else some hostname)

/-- Embedding of `Driver.updateIngressStatuses`: per tracked ingress, list the
cluster domains and write the recomputed load-balancer status when changed. -/
def updateIngressStatuses (store : Store) (clusterDomains : List Domain) :
    List ApiOp :=
  store.ingresses.foldl
    (fun ops ing =>
      let newStatus := calculateIngressLoadBalancerIPStatus ing clusterDomains
      ops ++ [ApiOp.listDomains] ++
        (if ing.lbHostnames = newStatus then []
         else [ApiOp.updateIngressStatus ing.name ing.namesp newStatus]))
    []

/-! ## Sync passes -/

/-- The backing-store calls issued by one error-free pass of `Driver.Sync`
(gateway feature disabled): list the three resource kinds, apply domains, edges
and tunnels in that order, then update the ingress statuses. -/
def syncOps (cfg : DriverConfig) (store : Store) (clusterDomains : List Domain)
    (clusterEdges : List HTTPSEdge) (clusterTunnels : List Tunnel) : List ApiOp :=
  let desired := calculateDomains cfg store
  let desiredEdges := calculateHTTPSEdges cfg store desired.2
  let desiredTunnels := calculateTunnels cfg store
  [ApiOp.listDomains, ApiOp.listEdges, ApiOp.listTunnels] ++
    applyDomains desired.1 clusterDomains ++
    applyHTTPSEdges desiredEdges clusterEdges ++
    applyTunnels desiredTunnels clusterTunnels ++
    updateIngressStatuses store clusterDomains

/-- The backing-store calls issued by one error-free pass of `Driver.SyncEdges`:
recompute the domains and edge set, list only the current edges, apply only the
edges. -/
def syncEdgesOps (cfg : DriverConfig) (store : Store)
    (clusterEdges : List HTTPSEdge) : List ApiOp :=
  let desired := calculateDomains cfg store
  let desiredEdges := calculateHTTPSEdges cfg store desired.2
  ApiOp.listEdges :: applyHTTPSEdges desiredEdges clusterEdges

/-! ## TLSEdge controller delete path -/

/-- Result of a remote ngrok API call: `none` is success, `notFound` the
distinguished not-found error (`ngrok.IsNotFound`), `otherErr` any other error. -/
inductive NgrokError where
  | notFound
  | otherErr
deriving DecidableEq, Repr

/-- Embedding of `ngrok.IsNotFound` over an optional error. -/
def isNotFoundErr : Option NgrokError → Bool
  | some NgrokError.notFound => true
  | _ => false

/-- Subset of `ingressv1alpha1.TLSEdge` read by the delete path. -/
structure TLSEdge where
  name : String
  namesp : String
  statusID : String
deriving DecidableEq, Repr

/-- Embedding of `TLSEdgeReconciler.delete`: clear `Status.ID` when the remote
delete succeeded or reported not-found, and return the remote error unchanged. -/
def tlsEdgeDelete (edge : TLSEdge) (remote : Option NgrokError) :
    TLSEdge × Option NgrokError :=
  if remote = none ∨ isNotFoundErr remote then
    ({ edge with statusID := "" }, remote)
  else (edge, remote)

/-! ## Concrete fixtures for witnesses and counterexamples -/

/-- Concrete driver configuration used by witnesses and counterexamples. -/
def cfgW : DriverConfig :=
  { managerName := "mgr", managerNamespace := "mns",
    clusterDomain := "svc.cluster.local", ingressNgrokMetadata := "" }

/-- Ingress whose single rule carries the empty host. -/
def ingEmptyHost : Ingress :=
  { name := "ing0", namesp := "ns1", uid := "u0",
    apiVersion := "networking.k8s.io/v1", kind := "Ingress",
    rules := [{ host := "", paths := [] }],
    moduleSets := none, trafficPolicy := none, lbHostnames := [] }

/-- Ingress in namespace ns1 with one rule host. -/
def ingHostA : Ingress :=
  { name := "ing-a", namesp := "ns1", uid := "ua",
    apiVersion := "networking.k8s.io/v1", kind := "Ingress",
    rules := [{ host := "h.example.com", paths := [] }],
    moduleSets := none, trafficPolicy := none, lbHostnames := [] }

/-- Ingress in namespace ns2 with the same rule host as `ingHostA`. -/
def ingHostB : Ingress :=
  { name := "ing-b", namesp := "ns2", uid := "ub",
    apiVersion := "networking.k8s.io/v1", kind := "Ingress",
    rules := [{ host := "h.example.com", paths := [] }],
    moduleSets := none, trafficPolicy := none, lbHostnames := [] }

/-- Concrete backing service with one port. -/
def svcW : Service :=
  { name := "svc", namesp := "ns", uid := "su", appProtocols := none,
    ports := [{ name := "web", port := 8080, appProtocol := none }] }

/-- Concrete ingress service backend resolving to `svcW` port 8080. -/
def backendW : IngressServiceBackend :=
  { name := "svc", port := { name := "", number := 8080 } }

/-- Concrete ingress path with a Prefix path type and the `backendW` backend. -/
def pathW : HTTPIngressPath :=
  { path := "/api", pathType := some ("Prefix"), backend := some backendW }

/-- Ingress whose one rule repeats the same path twice (duplicate route). -/
def ingDup : Ingress :=
  { name := "ing-dup", namesp := "ns", uid := "ud",
    apiVersion := "networking.k8s.io/v1", kind := "Ingress",
    rules := [{ host := "foo.example.com", paths := [pathW, pathW] }],
    moduleSets := none, trafficPolicy := none, lbHostnames := [] }

/-- Store tracking `ingDup` and `svcW`. -/
def storeDup : Store :=
  { ingresses := [ingDup], services := [svcW], moduleSets := [],
    trafficPolicies := [] }

/-- First of two single-path ingresses sharing the `backendW` backend. -/
def ingTun1 : Ingress :=
  { name := "ing-t1", namesp := "ns", uid := "u1",
    apiVersion := "networking.k8s.io/v1", kind := "Ingress",
    rules := [{ host := "h1.example.com", paths := [pathW] }],
    moduleSets := none, trafficPolicy := none, lbHostnames := [] }

/-- Second of two single-path ingresses sharing the `backendW` backend. -/
def ingTun2 : Ingress :=
  { name := "ing-t2", namesp := "ns", uid := "u2",
    apiVersion := "networking.k8s.io/v1", kind := "Ingress",
    rules := [{ host := "h2.example.com", paths := [pathW] }],
    moduleSets := none, trafficPolicy := none, lbHostnames := [] }

/-- Service with two identically numbered ports under different names, one of
them annotated HTTPS: both resolve to port 8080 and hence to the same tunnel
identity key, but to different protocols. -/
def svcTwoPorts : Service :=
  { name := "svc2", namesp := "ns", uid := "s2",
    appProtocols := some [("a", "HTTPS")],
    ports := [{ name := "a", port := 8080, appProtocol := none },
              { name := "b", port := 8080, appProtocol := none }] }

/-- Ingress path hitting `svcTwoPorts` via the port named a. -/
def pathPortA : HTTPIngressPath :=
  { path := "/", pathType := some ("Prefix"),
    backend := some { name := "svc2", port := { name := "a", number := 0 } } }

/-- Ingress path hitting `svcTwoPorts` via the port named b. -/
def pathPortB : HTTPIngressPath :=
  { path := "/", pathType := some ("Prefix"),
    backend := some { name := "svc2", port := { name := "b", number := 0 } } }

/-- Ingress contributing the port-a path. -/
def ingPortA : Ingress :=
  { name := "ing-pa", namesp := "ns", uid := "ua",
    apiVersion := "networking.k8s.io/v1", kind := "Ingress",
    rules := [{ host := "pa.example.com", paths := [pathPortA] }],
    moduleSets := none, trafficPolicy := none, lbHostnames := [] }

/-- Ingress contributing the port-b path. -/
def ingPortB : Ingress :=
  { name := "ing-pb", namesp := "ns", uid := "ub",
    apiVersion := "networking.k8s.io/v1", kind := "Ingress",
    rules := [{ host := "pb.example.com", paths := [pathPortB] }],
    moduleSets := none, trafficPolicy := none, lbHostnames := [] }

/-! ## Shared invariant lemmas for the debouncer -/

theorem syncInv_initial : SyncInv initialSyncState := by
  constructor
  · exact Or.inl rfl
  · intro _; exact ⟨rfl, rfl⟩

theorem syncInv_step (s : SyncState) (e : SyncEv) (h : SyncInv s) :
    SyncInv (syncStep s e) := by
  obtain ⟨hone, hidle⟩ := h
  cases e with
  | start p =>
    simp only [syncStep, syncStart]
    split
    · exact ⟨hone, by intro hc; simp_all⟩
    · split
      · exact ⟨hone, hidle⟩
      · refine ⟨?_, ?_⟩
        · cases p <;> simp
        · intro hc
          simp only [SyncState.mk.injEq] at hc ⊢
          cases p <;> simp_all
  | done =>
    exact ⟨Or.inl rfl, fun _ => ⟨rfl, rfl⟩⟩

theorem syncInv_run (evs : List SyncEv) : SyncInv (runSync evs) := by
  suffices h : ∀ s, SyncInv s → SyncInv (evs.foldl syncStep s) from
    h initialSyncState syncInv_initial
  induction evs with
  | nil => intro s hs; exact hs
  | cons e rest ih =>
    intro s hs
    exact ih (syncStep s e) (syncInv_step s e hs)

/-! ## Claim theorems -/

/-- Claim C10: `TLSEdgeReconciler.delete` clears the edge `Status.ID` exactly
when the remote delete call succeeds or reports not-found, and in every case
returns the remote API error unchanged — in particular a not-found error is
still propagated to the caller even though the stored ID has been cleared. -/
theorem tlsEdgeDelete_clears_id_and_propagates (edge : TLSEdge)
    (remote : Option NgrokError) :
    (tlsEdgeDelete edge remote).1.statusID =
      (if remote = none ∨ isNotFoundErr remote then "" else edge.statusID) ∧
    (tlsEdgeDelete edge remote).2 = remote ∧
    (tlsEdgeDelete edge (some NgrokError.notFound)).2 =
      some NgrokError.notFound ∧
    (tlsEdgeDelete edge (some NgrokError.notFound)).1.statusID = "" := by
  refine ⟨?_, ?_, ?_, ?_⟩ <;> simp only [tlsEdgeDelete] <;> split <;>
    simp_all [isNotFoundErr]

/-- Claim C5: `getPortAnnotatedProtocol` accepts the annotation values HTTP and
HTTPS case-insensitively (returning the upper-cased value), errors on every
other non-empty annotated value for the port, and returns the default HTTP
whenever the service has no app-protocols annotation or the port name is absent
from it; in particular a port named https with no explicit annotation yields
HTTP. -/
theorem getPortAnnotatedProtocol_spec (service : Service)
    (portName proto : String) (m : List (String × String)) :
    (service.appProtocols = none →
      getPortAnnotatedProtocol service portName = Except.ok ("HTTP")) ∧
    (service.appProtocols = some m → alLookup m portName = none →
      getPortAnnotatedProtocol service portName = Except.ok ("HTTP")) ∧
    (service.appProtocols = some m → alLookup m portName = some proto →
      (goToUpper proto = "HTTP" ∨ goToUpper proto = "HTTPS") →
      getPortAnnotatedProtocol service portName = Except.ok (goToUpper proto)) ∧
    (service.appProtocols = some m → alLookup m portName = some proto →
      proto ≠ "" → ¬(goToUpper proto = "HTTP" ∨ goToUpper proto = "HTTPS") →
      getPortAnnotatedProtocol service portName = Except.error ()) ∧
    (service.appProtocols = none →
      getPortAnnotatedProtocol service "https" = Except.ok ("HTTP")) := by
  refine ⟨?_, ?_, ?_, ?_, ?_⟩
  · intro h
    simp [getPortAnnotatedProtocol, h]
  · intro h h2
    simp [getPortAnnotatedProtocol, h, h2]
  · intro h h2 h3
    simp only [getPortAnnotatedProtocol, h, h2]
    split
    · rfl
    · exact absurd h3 (by assumption)
  · intro h h2 _ h4
    simp only [getPortAnnotatedProtocol, h, h2]
    split
    · exact absurd (by assumption) h4
    · rfl
  · intro h
    simp [getPortAnnotatedProtocol, h]

/-- Witness for claim C5 at concrete inputs: a port annotated hTtpS resolves to
HTTPS, and a port named https with no annotation resolves to the HTTP default. -/
theorem getPortAnnotatedProtocol_spec_witness :
    getPortAnnotatedProtocol
      { name := "svc", namesp := "ns", uid := "u",
        appProtocols := some [("p1", "hTtpS")], ports := [] } "p1" =
      Except.ok ("HTTPS") ∧
    getPortAnnotatedProtocol
      { name := "svc", namesp := "ns", uid := "u",
        appProtocols := none, ports := [] } "https" =
      Except.ok ("HTTP") := by
  constructor
  · have e : goToUpper ("hTtpS") = "HTTPS" := rfl
    have h := (getPortAnnotatedProtocol_spec
      { name := "svc", namesp := "ns", uid := "u",
        appProtocols := some [("p1", "hTtpS")], ports := [] }
      "p1" "hTtpS" [("p1", "hTtpS")]).2.2.1 rfl rfl (Or.inr e)
    rw [e] at h
    exact h
  · exact (getPortAnnotatedProtocol_spec
      { name := "svc", namesp := "ns", uid := "u",
        appProtocols := none, ports := [] }
      "https" "" []).2.2.2.2 rfl

/-- Claim C9: starting from the initial driver state, under every sequence of
`syncStart` / `syncDone` calls, at most one of the two waiter channels is
non-nil at any time, and whenever the running flag is false both waiter
channels are nil. -/
theorem debouncer_invariant (evs : List SyncEv) :
    ((runSync evs).chFull = none ∨ (runSync evs).chPart = none) ∧
    ((runSync evs).running = false →
      (runSync evs).chFull = none ∧ (runSync evs).chPart = none) :=
  syncInv_run evs

/-- Witness for claim C9 at a concrete event sequence: after a full sync starts
and a concurrent full request queues itself, the partial channel is nil, and
after the sync completes the idle state has both channels nil. -/
theorem debouncer_invariant_witness :
    (runSync [SyncEv.start false, SyncEv.start false]).chPart = none ∧
    (runSync [SyncEv.start false, SyncEv.start false, SyncEv.done]).running =
      false ∧
    (runSync [SyncEv.start false, SyncEv.start false, SyncEv.done]).chFull =
      none := by
  refine ⟨?_, by decide, ?_⟩
  · rcases (debouncer_invariant [SyncEv.start false, SyncEv.start false]).1 with
      h | h
    · exact absurd h (by decide)
    · exact h
  · exact ((debouncer_invariant
      [SyncEv.start false, SyncEv.start false, SyncEv.done]).2 (by decide)).1

/-- Claim C6: when the in-flight sync finishes, `syncDone` wakes exactly one
queued waiter group — the full-sync group when one is queued, the partial-sync
group otherwise — by delivering the sentinel to that group channel, and
afterwards both waiter channels are nil and the running flag is false. -/
theorem syncDone_wakes_one_group (evs : List SyncEv) :
    (syncDoneRun (runSync evs)).2 =
      { running := false, chFull := none, chPart := none } ∧
    (((runSync evs).chFull.isSome ∨ (runSync evs).chPart.isSome) →
      ∃ g, (syncDoneRun (runSync evs)).1 = [g] ∧
        ((runSync evs).chFull.isSome → g = WakeGroup.full) ∧
        ((runSync evs).chFull = none → g = WakeGroup.part)) := by
  refine ⟨rfl, ?_⟩
  intro hsome
  have hinv := syncInv_run evs
  rcases hfull : (runSync evs).chFull with _ | u
  · rcases hpart : (runSync evs).chPart with _ | v
    · rw [hfull, hpart] at hsome
      simp at hsome
    · refine ⟨WakeGroup.part, ?_, ?_, fun _ => rfl⟩
      · simp [syncDoneRun, hfull, hpart]
      · intro hc
        simp [hfull] at hc
  · have hpart : (runSync evs).chPart = none := by
      rcases hinv.1 with h | h
      · rw [hfull] at h
        simp at h
      · exact h
    refine ⟨WakeGroup.full, ?_, fun _ => rfl, ?_⟩
    · simp [syncDoneRun, hfull, hpart]
    · intro hc
      simp [hfull] at hc

/-- Witness for claim C6 at a concrete event sequence: with a full waiter
queued behind a running sync, `syncDone` wakes exactly the full group and
resets the state. -/
theorem syncDone_wakes_one_group_witness :
    (syncDoneRun (runSync [SyncEv.start false, SyncEv.start false])).1 =
      [WakeGroup.full] ∧
    (syncDoneRun (runSync [SyncEv.start false, SyncEv.start false])).2 =
      { running := false, chFull := none, chPart := none } := by
  have h := syncDone_wakes_one_group [SyncEv.start false, SyncEv.start false]
  obtain ⟨g, hg, hfull, _⟩ := h.2 (Or.inl (by decide))
  refine ⟨?_, h.1⟩
  rw [hg, hfull (by decide)]

/-- Claim C1: domain reconciliation never issues a delete call: every call of
`applyDomains` is either a create of a desired domain that no current domain
matches by name and namespace, or an update (with the desired spec) of the
first matching current domain whose spec differs; current domains absent from
the desired set trigger no call at all. -/
theorem applyDomains_never_deletes (desired current : List Domain) (op : ApiOp)
    (hop : op ∈ applyDomains desired current) :
    (∀ d, op ≠ ApiOp.deleteDomain d) ∧
    ((∃ d, op = ApiOp.createDomain d ∧ d ∈ desired ∧
        findDomain current d.name d.namesp = none) ∨
     (∃ d c, op = ApiOp.updateDomain { c with spec := d.spec } ∧ d ∈ desired ∧
        findDomain current d.name d.namesp = some c ∧ d.spec ≠ c.spec)) := by
  induction desired with
  | nil => simp [applyDomains] at hop
  | cons d rest ih =>
    simp only [applyDomains, List.mem_append] at hop
    rcases hop with h | h
    · cases hfind : findDomain current d.name d.namesp with
      | some c =>
        rw [hfind] at h
        by_cases hspec : d.spec = c.spec
        · simp [hspec] at h
        · simp only [if_neg hspec, List.mem_singleton] at h
          subst h
          exact ⟨fun x => by simp,
            Or.inr ⟨d, c, rfl, List.mem_cons_self d rest, hfind, hspec⟩⟩
      | none =>
        rw [hfind] at h
        simp only [List.mem_singleton] at h
        subst h
        exact ⟨fun x => by simp,
          Or.inl ⟨d, rfl, List.mem_cons_self d rest, hfind⟩⟩
    · obtain ⟨hnd, hcases⟩ := ih h
      refine ⟨hnd, ?_⟩
      rcases hcases with ⟨d0, heq, hmem, hfind⟩ | ⟨d0, c0, heq, hmem, hfind, hne⟩
      · exact Or.inl ⟨d0, heq, List.mem_cons_of_mem d hmem, hfind⟩
      · exact Or.inr ⟨d0, c0, heq, List.mem_cons_of_mem d hmem, hfind, hne⟩

/-- Witness for claim C1 at concrete inputs: with one desired domain and an
empty cluster, the single issued call is a create and no call is a delete. -/
theorem applyDomains_never_deletes_witness :
    ApiOp.createDomain
      { name := "h-example-com", namesp := "ns",
        spec := { domain := "h.example.com", metadata := "" },
        status := { domain := "", cnameTarget := none } } ∈
      applyDomains
        [{ name := "h-example-com", namesp := "ns",
           spec := { domain := "h.example.com", metadata := "" },
           status := { domain := "", cnameTarget := none } }] [] ∧
    (∀ d, ApiOp.createDomain
      { name := "h-example-com", namesp := "ns",
        spec := { domain := "h.example.com", metadata := "" },
        status := { domain := "", cnameTarget := none } } ≠
        ApiOp.deleteDomain d) := by
  have hmem : ApiOp.createDomain
      { name := "h-example-com", namesp := "ns",
        spec := { domain := "h.example.com", metadata := "" },
        status := { domain := "", cnameTarget := none } } ∈
      applyDomains
        [{ name := "h-example-com", namesp := "ns",
           spec := { domain := "h.example.com", metadata := "" },
           status := { domain := "", cnameTarget := none } }] ([] : List Domain) := by
    simp [applyDomains, findDomain]
  exact ⟨hmem, (applyDomains_never_deletes _ _ _ hmem).1⟩

/-! ## Lemmas about the edge apply loop -/

theorem applyEdgesLoop_append (l1 l2 : List HTTPSEdge) :
    ∀ desired ops, applyEdgesLoop (l1 ++ l2) desired ops =
      applyEdgesLoop l2 (applyEdgesLoop l1 desired ops).1
        (applyEdgesLoop l1 desired ops).2 := by
  induction l1 with
  | nil => intro desired ops; rfl
  | cons e rest ih =>
    intro desired ops
    simp only [List.cons_append, applyEdgesLoop]
    cases hhp : e.spec.hostports with
    | nil => exact ih _ _
    | cons a tail =>
      cases tail with
      | cons b tail2 => exact ih _ _
      | nil =>
        dsimp only
        cases halok : alLookup desired (trimHostport a) with
        | some de =>
          simp only [halok]
          exact ih _ _
        | none =>
          simp only [halok]
          exact ih _ _

theorem applyEdgesLoop_ops_edge (current : List HTTPSEdge) :
    ∀ desired ops, (∀ op ∈ ops, isEdgeOp op = true) →
      ∀ op ∈ (applyEdgesLoop current desired ops).2, isEdgeOp op = true := by
  induction current with
  | nil => intro desired ops hops; exact hops
  | cons e rest ih =>
    intro desired ops hops
    simp only [applyEdgesLoop]
    cases hhp : e.spec.hostports with
    | nil => exact ih _ _ hops
    | cons a tail =>
      cases tail with
      | cons b tail2 => exact ih _ _ hops
      | nil =>
        dsimp only
        cases halok : alLookup desired (trimHostport a) with
        | some de =>
          simp only [halok]
          refine ih _ _ ?_
          intro op hop
          split at hop
          · exact hops op hop
          · rcases List.mem_append.mp hop with h | h
            · exact hops op h
            · simp only [List.mem_singleton] at h
              subst h
              rfl
        | none =>
          simp only [halok]
          refine ih _ _ ?_
          intro op hop
          rcases List.mem_append.mp hop with h | h
          · exact hops op h
          · simp only [List.mem_singleton] at h
            subst h
            rfl

theorem applyHTTPSEdges_ops_edge (desired : List (String × HTTPSEdge))
    (current : List HTTPSEdge) :
    ∀ op ∈ applyHTTPSEdges desired current, isEdgeOp op = true := by
  intro op hop
  simp only [applyHTTPSEdges] at hop
  rcases List.mem_append.mp hop with h | h
  · exact applyEdgesLoop_ops_edge current desired [] (by intro op h; simp at h) op h
  · obtain ⟨kv, _, hkv⟩ := List.mem_map.mp h
    subst hkv
    rfl

/-- Claim C4: edge reconciliation leaves a currently-owned edge with two
hostports unmodified — removing it from the current list does not change the
issued calls at all — while a current edge with exactly one hostport is matched
by its hostport with the 443 port suffix trimmed and is updated when its spec
differs from the matching desired edge, or deleted when no desired edge
matches. -/
theorem applyHTTPSEdges_skips_multi_hostport
    (desired : List (String × HTTPSEdge)) (c1 c2 : List HTTPSEdge)
    (e : HTTPSEdge) (h2 : e.spec.hostports.length = 2) :
    applyHTTPSEdges desired (c1 ++ e :: c2) =
      applyHTTPSEdges desired (c1 ++ c2) ∧
    (∀ e1 hp, e1.spec.hostports = [hp] →
      (alLookup desired (trimHostport hp) = none →
        applyHTTPSEdges desired [e1] =
          ApiOp.deleteEdge e1 ::
            desired.map (fun kv => ApiOp.createEdge kv.2)) ∧
      (∀ de, alLookup desired (trimHostport hp) = some de → de.spec = e1.spec →
        applyHTTPSEdges desired [e1] =
          (alErase desired (trimHostport hp)).map
            (fun kv => ApiOp.createEdge kv.2)) ∧
      (∀ de, alLookup desired (trimHostport hp) = some de → de.spec ≠ e1.spec →
        applyHTTPSEdges desired [e1] =
          ApiOp.updateEdge { e1 with spec := de.spec } ::
            (alErase desired (trimHostport hp)).map
              (fun kv => ApiOp.createEdge kv.2))) := by
  constructor
  · obtain ⟨a, b, hab⟩ : ∃ a b, e.spec.hostports = [a, b] := by
      cases hhp : e.spec.hostports with
      | nil => rw [hhp] at h2; simp at h2
      | cons a t =>
        cases t with
        | nil => rw [hhp] at h2; simp at h2
        | cons b t2 =>
          cases t2 with
          | nil => exact ⟨a, b, rfl⟩
          | cons c t3 => rw [hhp] at h2; simp at h2
    have key : ∀ desired0 ops, applyEdgesLoop (c1 ++ e :: c2) desired0 ops =
        applyEdgesLoop (c1 ++ c2) desired0 ops := by
      intro desired0 ops
      rw [applyEdgesLoop_append c1 (e :: c2), applyEdgesLoop_append c1 c2]
      simp only [applyEdgesLoop, hab]
    simp only [applyHTTPSEdges, key]
  · intro e1 hp hhp
    refine ⟨?_, ?_, ?_⟩
    · intro hlook
      simp [applyHTTPSEdges, applyEdgesLoop, hhp, hlook]
    · intro de hlook hspec
      simp [applyHTTPSEdges, applyEdgesLoop, hhp, hlook, hspec]
    · intro de hlook hspec
      simp [applyHTTPSEdges, applyEdgesLoop, hhp, hlook, hspec]

/-- Witness for claim C4 at concrete inputs: an owned edge carrying two
hostports is skipped (the pass issues the same calls as without it — here none),
while a single-hostport edge matching no desired edge is deleted. -/
theorem applyHTTPSEdges_skips_multi_hostport_witness :
    applyHTTPSEdges []
      [{ generateName := "e-", namesp := "ns", labels := [],
         spec := { hostports := ["a.example.com:443", "b.example.com:443"],
                   metadata := "", routes := [], tlsTermination := none,
                   mutualTLS := none } }] = applyHTTPSEdges [] [] ∧
    applyHTTPSEdges []
      [{ generateName := "s-", namesp := "ns", labels := [],
         spec := { hostports := ["s.example.com:443"], metadata := "",
                   routes := [], tlsTermination := none,
                   mutualTLS := none } }] =
      [ApiOp.deleteEdge
        { generateName := "s-", namesp := "ns", labels := [],
          spec := { hostports := ["s.example.com:443"], metadata := "",
                    routes := [], tlsTermination := none,
                    mutualTLS := none } }] := by
  have h := applyHTTPSEdges_skips_multi_hostport ([] : List (String × HTTPSEdge))
    [] []
    { generateName := "e-", namesp := "ns", labels := [],
      spec := { hostports := ["a.example.com:443", "b.example.com:443"],
                metadata := "", routes := [], tlsTermination := none,
                mutualTLS := none } } (by rfl)
  constructor
  · simpa using h.1
  · have hdel := (h.2
      { generateName := "s-", namesp := "ns", labels := [],
        spec := { hostports := ["s.example.com:443"], metadata := "",
                  routes := [], tlsTermination := none, mutualTLS := none } }
      "s.example.com:443" rfl).1 rfl
    simpa using hdel

/-- Claim C7: a partial sync pass (`SyncEdges`) only lists and applies edges:
every backing-store call it issues is edge-directed — it issues no create,
update or delete call for domains or tunnels, performs no ingress status
write, and lists neither domains nor tunnels. -/
theorem syncEdges_only_edge_ops (cfg : DriverConfig) (store : Store)
    (clusterEdges : List HTTPSEdge) (op : ApiOp)
    (hop : op ∈ syncEdgesOps cfg store clusterEdges) :
    isEdgeOp op = true ∧
    (∀ d, op ≠ ApiOp.createDomain d ∧ op ≠ ApiOp.updateDomain d ∧
      op ≠ ApiOp.deleteDomain d) ∧
    (∀ t, op ≠ ApiOp.createTunnel t ∧ op ≠ ApiOp.updateTunnel t ∧
      op ≠ ApiOp.deleteTunnel t) ∧
    (∀ name namesp hostnames,
      op ≠ ApiOp.updateIngressStatus name namesp hostnames) ∧
    op ≠ ApiOp.listDomains ∧ op ≠ ApiOp.listTunnels := by
  have hedge : isEdgeOp op = true := by
    simp only [syncEdgesOps, List.mem_cons] at hop
    rcases hop with h | h
    · subst h; rfl
    · exact applyHTTPSEdges_ops_edge _ _ op h
  refine ⟨hedge, ?_, ?_, ?_, ?_, ?_⟩ <;> cases op <;> simp_all [isEdgeOp]

/-- Witness for claim C7 at concrete inputs: with an empty store and no current
edges, the partial pass issues exactly the edge list call, which is
edge-directed and not a domain list call. -/
theorem syncEdges_only_edge_ops_witness :
    syncEdgesOps
      { managerName := "mgr", managerNamespace := "mns",
        clusterDomain := "svc.cluster.local", ingressNgrokMetadata := "" }
      { ingresses := [], services := [], moduleSets := [],
        trafficPolicies := [] } [] = [ApiOp.listEdges] ∧
    isEdgeOp ApiOp.listEdges = true ∧
    ApiOp.listEdges ≠ ApiOp.listDomains := by
  refine ⟨rfl, ?_, ?_⟩
  · exact (syncEdges_only_edge_ops
      { managerName := "mgr", managerNamespace := "mns",
        clusterDomain := "svc.cluster.local", ingressNgrokMetadata := "" }
      { ingresses := [], services := [], moduleSets := [],
        trafficPolicies := [] } [] ApiOp.listEdges (by simp [syncEdgesOps])).1
  · exact (syncEdges_only_edge_ops
      { managerName := "mgr", managerNamespace := "mns",
        clusterDomain := "svc.cluster.local", ingressNgrokMetadata := "" }
      { ingresses := [], services := [], moduleSets := [],
        trafficPolicies := [] } [] ApiOp.listEdges
      (by simp [syncEdgesOps])).2.2.2.2.1

/-! ## Association-list lemmas -/

theorem mem_alKeys_alInsert {α β : Type} [DecidableEq α]
    (m : List (α × β)) (k : α) (v : β) (k0 : α) :
    k0 ∈ alKeys (alInsert m k v) ↔ k0 ∈ alKeys m ∨ k0 = k := by
  induction m with
  | nil => simp [alInsert, alKeys]
  | cons kv rest ih =>
    obtain ⟨ka, va⟩ := kv
    simp only [alInsert]
    split
    · rename_i heq
      subst heq
      simp only [alKeys, List.map_cons, List.mem_cons]
      tauto
    · simp only [alKeys, List.map_cons, List.mem_cons] at ih ⊢
      rw [ih]
      tauto

theorem nodup_alKeys_alInsert {α β : Type} [DecidableEq α]
    (m : List (α × β)) (k : α) (v : β) (h : (alKeys m).Nodup) :
    (alKeys (alInsert m k v)).Nodup := by
  induction m with
  | nil => simp [alInsert, alKeys]
  | cons kv rest ih =>
    obtain ⟨ka, va⟩ := kv
    simp only [alKeys, List.map_cons, List.nodup_cons] at h
    simp only [alInsert]
    split
    · rename_i heq
      subst heq
      simp only [alKeys, List.map_cons, List.nodup_cons]
      exact h
    · rename_i hne
      simp only [alKeys, List.map_cons, List.nodup_cons]
      refine ⟨?_, ih h.2⟩
      intro hmem
      rcases (mem_alKeys_alInsert rest k v ka).mp hmem with hmem2 | hmem2
      · exact h.1 hmem2
      · exact hne hmem2

theorem mem_alInsert {α β : Type} [DecidableEq α]
    (m : List (α × β)) (k : α) (v : β) (kv0 : α × β)
    (h : kv0 ∈ alInsert m k v) : kv0 = (k, v) ∨ kv0 ∈ m := by
  induction m with
  | nil => simpa [alInsert] using h
  | cons kv rest ih =>
    obtain ⟨ka, va⟩ := kv
    simp only [alInsert] at h
    split at h
    · rcases List.mem_cons.mp h with h2 | h2
      · exact Or.inl h2
      · exact Or.inr (List.mem_cons_of_mem _ h2)
    · rcases List.mem_cons.mp h with h2 | h2
      · exact Or.inr (h2 ▸ List.mem_cons_self _ _)
      · rcases ih h2 with h3 | h3
        · exact Or.inl h3
        · exact Or.inr (List.mem_cons_of_mem _ h3)

theorem alLookup_of_mem_nodup {α β : Type} [DecidableEq α]
    (m : List (α × β)) (k : α) (v : β) (hnd : (alKeys m).Nodup)
    (hmem : (k, v) ∈ m) : alLookup m k = some v := by
  induction m with
  | nil => simp at hmem
  | cons kv rest ih =>
    obtain ⟨ka, va⟩ := kv
    simp only [alKeys, List.map_cons, List.nodup_cons] at hnd
    simp only [alLookup]
    rcases List.mem_cons.mp hmem with h | h
    · rw [Prod.mk.injEq] at h
      obtain ⟨h1, h2⟩ := h
      rw [if_pos h1.symm, h2]
    · have hkne : ¬(ka = k) := by
        intro he
        subst he
        exact hnd.1 (List.mem_map.mpr ⟨(ka, v), h, rfl⟩)
      rw [if_neg hkne]
      exact ih hnd.2 h

theorem mem_alKeys_iff {α β : Type} (m : List (α × β)) (k : α) :
    k ∈ alKeys m ↔ ∃ v, (k, v) ∈ m := by
  simp only [alKeys, List.mem_map]
  constructor
  · rintro ⟨⟨ka, va⟩, hmem, rfl⟩
    exact ⟨va, hmem⟩
  · rintro ⟨v, hmem⟩
    exact ⟨(k, v), hmem, rfl⟩

theorem alLookup_alInsert_self {α β : Type} [DecidableEq α]
    (m : List (α × β)) (k : α) (v : β) :
    alLookup (alInsert m k v) k = some v := by
  induction m with
  | nil => simp [alInsert, alLookup]
  | cons kv rest ih =>
    obtain ⟨ka, va⟩ := kv
    simp only [alInsert]
    split
    · simp [alLookup]
    · simp only [alLookup]
      rw [if_neg (by assumption)]
      exact ih

/-! ## Lemmas about the domain calculator -/

theorem domainFold_invariant (cfg : DriverConfig) (ing : Ingress)
    (rules : List IngressRule) :
    ∀ m : List (String × Domain), (alKeys m).Nodup →
      (alKeys (rules.foldl (domainFoldStep cfg ing) m)).Nodup ∧
      (∀ k, k ∈ alKeys (rules.foldl (domainFoldStep cfg ing) m) ↔
        k ∈ alKeys m ∨
          (k ∈ rules.map (fun r => r.host) ∧ ¬(k = ""))) ∧
      (∀ kv ∈ rules.foldl (domainFoldStep cfg ing) m,
        kv ∈ m ∨ kv = (kv.1, mkIngressDomain cfg ing kv.1)) := by
  induction rules with
  | nil =>
    intro m hm
    refine ⟨hm, by simp, ?_⟩
    intro kv hkv
    exact Or.inl hkv
  | cons r rest ih =>
    intro m hm
    by_cases hr : r.host = ""
    · simp only [List.foldl_cons, domainFoldStep, if_pos hr]
      obtain ⟨h1, h2, h3⟩ := ih m hm
      refine ⟨h1, ?_, h3⟩
      intro k
      rw [h2 k]
      simp only [List.map_cons, List.mem_cons]
      constructor
      · rintro (hk | ⟨hk, hne⟩)
        · exact Or.inl hk
        · exact Or.inr ⟨Or.inr hk, hne⟩
      · rintro (hk | ⟨(hk | hk), hne⟩)
        · exact Or.inl hk
        · exact absurd (hk.trans hr) hne
        · exact Or.inr ⟨hk, hne⟩
    · simp only [List.foldl_cons, domainFoldStep, if_neg hr]
      have hm2 : (alKeys (alInsert m r.host (mkIngressDomain cfg ing r.host))).Nodup :=
        nodup_alKeys_alInsert m r.host _ hm
      obtain ⟨h1, h2, h3⟩ := ih _ hm2
      refine ⟨h1, ?_, ?_⟩
      · intro k
        rw [h2 k, mem_alKeys_alInsert]
        simp only [List.map_cons, List.mem_cons]
        constructor
        · rintro ((hk | hk) | ⟨hk, hne⟩)
          · exact Or.inl hk
          · exact Or.inr ⟨Or.inl hk, fun he => hr (hk ▸ he)⟩
          · exact Or.inr ⟨Or.inr hk, hne⟩
        · rintro (hk | ⟨(hk | hk), hne⟩)
          · exact Or.inl (Or.inl hk)
          · exact Or.inl (Or.inr hk)
          · exact Or.inr ⟨hk, hne⟩
      · intro kv hkv
        rcases h3 kv hkv with hmem | heq
        · rcases mem_alInsert m r.host _ kv hmem with heq2 | hmem2
          · right
            rw [heq2]
          · exact Or.inl hmem2
        · exact Or.inr heq

/-- Claim C3 (amended): for a store tracking a single ingress, the Domain
calculator produces exactly one domain record per unique non-empty rule host,
each namespaced to the owning ingress, with spec Domain equal to the host, and
the record for each non-empty host is the domain built from that host. -/
theorem calculateDomainsFromIngress_count (cfg : DriverConfig) (ing : Ingress) :
    (calculateDomainsFromIngress cfg [ing]).length =
      ((ing.rules.map (fun r => r.host)).toFinset.erase "").card ∧
    (∀ kv ∈ calculateDomainsFromIngress cfg [ing],
      kv.2.namesp = ing.namesp ∧ kv.2.spec.domain = kv.1 ∧
      kv.2 = mkIngressDomain cfg ing kv.1) ∧
    (∀ h, h ∈ ing.rules.map (fun r => r.host) → ¬(h = "") →
      alLookup (calculateDomainsFromIngress cfg [ing]) h =
        some (mkIngressDomain cfg ing h)) := by
  have hM : calculateDomainsFromIngress cfg [ing] =
      ing.rules.foldl (domainFoldStep cfg ing) [] := rfl
  obtain ⟨h1, h2, h3⟩ := domainFold_invariant cfg ing ing.rules [] (by simp [alKeys])
  rw [hM]
  refine ⟨?_, ?_, ?_⟩
  · have hlen : (ing.rules.foldl (domainFoldStep cfg ing) []).length =
        (alKeys (ing.rules.foldl (domainFoldStep cfg ing) [])).length := by
      simp [alKeys]
    rw [hlen, ← List.toFinset_card_of_nodup h1]
    congr 1
    ext a
    rw [List.mem_toFinset, h2 a, Finset.mem_erase, List.mem_toFinset]
    simp only [alKeys, List.map_nil, List.not_mem_nil, false_or]
    tauto
  · intro kv hkv
    rcases h3 kv hkv with hmem | heq
    · simp at hmem
    · refine ⟨?_, ?_, ?_⟩
      · rw [show kv.2 = (kv.1, mkIngressDomain cfg ing kv.1).2 from
          congrArg Prod.snd heq]
        rfl
      · rw [show kv.2 = (kv.1, mkIngressDomain cfg ing kv.1).2 from
          congrArg Prod.snd heq]
        rfl
      · exact congrArg Prod.snd heq
  · intro h hmem hne
    have hk : h ∈ alKeys (ing.rules.foldl (domainFoldStep cfg ing) []) := by
      rw [h2 h]
      exact Or.inr ⟨hmem, hne⟩
    obtain ⟨v, hv⟩ := (mem_alKeys_iff _ h).mp hk
    have hv2 := h3 (h, v) hv
    rcases hv2 with hmem2 | heq2
    · simp at hmem2
    · have : v = mkIngressDomain cfg ing h := congrArg Prod.snd heq2
      rw [alLookup_of_mem_nodup _ h v h1 hv, this]

/-- Witness for claim C3 (amended) at a concrete ingress with one non-empty
host: exactly one record is produced and it is the domain built from the host. -/
theorem calculateDomainsFromIngress_count_witness :
    (calculateDomainsFromIngress cfgW [ingHostA]).length = 1 ∧
    alLookup (calculateDomainsFromIngress cfgW [ingHostA]) ("h.example.com") =
      some (mkIngressDomain cfgW ingHostA ("h.example.com")) := by
  have h := calculateDomainsFromIngress_count cfgW ingHostA
  refine ⟨?_, h.2.2 ("h.example.com") (by decide) (by decide)⟩
  rw [h.1]
  decide

/-- Counterexample to claim C3 as stated: an ingress whose single rule carries
the empty host has one unique rule host but produces zero domain records; and
with two tracked ingresses sharing a host, the single record for that host is
not namespaced to the first owning ingress. -/
theorem calculateDomainsFromIngress_counterexample :
    (calculateDomainsFromIngress cfgW [ingEmptyHost]).length ≠
      ((ingEmptyHost.rules.map (fun r => r.host)).toFinset).card ∧
    (∀ kv ∈ calculateDomainsFromIngress cfgW [ingHostA, ingHostB],
      ¬(kv.2.namesp = ingHostA.namesp)) ∧
    ("h.example.com") ∈ ingHostA.rules.map (fun r => r.host) ∧
    calculateDomainsFromIngress cfgW [ingHostA, ingHostB] ≠ [] := by
  refine ⟨by decide, by decide, by decide, by decide⟩

/-- Claim C8: when the ingress edge calculator produces a route whose
(match, matchType) pair equals that of a route already in the edge route list,
the duplicate is not rejected: the new route is still appended and the earlier
entry is not removed, so both occurrences are present in the edge routes after
the pass. -/
theorem duplicate_routes_both_kept (cfg : DriverConfig) (store : Store)
    (ing : Ingress) (hh : String) (p1 p2 : HTTPIngressPath)
    (b1 b2 : IngressServiceBackend) (mt uid1 uid2 : String) (port1 port2 : Int)
    (hstore : store.ingresses = [ing])
    (hms : ing.moduleSets = none)
    (htp : ing.trafficPolicy = none)
    (hrules : ing.rules = [{ host := hh, paths := [p1, p2] }])
    (hne : ¬(hh = ""))
    (hb1 : p1.backend = some b1) (hb2 : p2.backend = some b2)
    (hmt1 : matchTypeFor p1.pathType = some mt)
    (hmt2 : matchTypeFor p2.pathType = some mt)
    (hres1 : getEdgeBackend store.services b1 ing.namesp = Except.ok (uid1, port1))
    (hres2 : getEdgeBackend store.services b2 ing.namesp = Except.ok (uid2, port2))
    (hdup : p1.path = p2.path) :
    ∃ e, alLookup (calculateHTTPSEdges cfg store (calculateDomains cfg store).2)
        hh = some e ∧
      e.spec.routes =
        [mkRoute cfg ing.namesp p1 mt uid1 b1.name port1 emptyModules
           (some ("null")),
         mkRoute cfg ing.namesp p2 mt uid2 b2.name port2 emptyModules
           (some ("null"))] ∧
      (mkRoute cfg ing.namesp p1 mt uid1 b1.name port1 emptyModules
        (some ("null"))).routeMatch =
        (mkRoute cfg ing.namesp p2 mt uid2 b2.name port2 emptyModules
          (some ("null"))).routeMatch ∧
      (mkRoute cfg ing.namesp p1 mt uid1 b1.name port1 emptyModules
        (some ("null"))).routeMatchType =
        (mkRoute cfg ing.namesp p2 mt uid2 b2.name port2 emptyModules
          (some ("null"))).routeMatchType := by
  have hdom : (calculateDomains cfg store).2 = [mkIngressDomain cfg ing hh] := by
    simp only [calculateDomains, calculateDomainsFromIngress, hstore,
      List.foldl_cons, List.foldl_nil, calcDomainsOfIngress, hrules,
      domainFoldStep]
    rw [if_neg hne]
    simp [alInsert]
  rw [hdom]
  have hscaffold : calculateHTTPSEdges cfg store [mkIngressDomain cfg ing hh] =
      calculateHTTPSEdgesFromIngress cfg store
        [(hh, scaffoldEdge cfg (mkIngressDomain cfg ing hh))] := by
    simp [calculateHTTPSEdges, alInsert, mkIngressDomain]
  rw [hscaffold]
  have hmods : getNgrokModuleSetForIngress store ing = Except.ok emptyModules := by
    simp [getNgrokModuleSetForIngress, hms]
  have hpol : getTrafficPolicyJSON store ing emptyModules =
      Except.ok (some (marshalPolicy none)) := by
    simp [getTrafficPolicyJSON, getNgrokTrafficPolicyForIngress, htp,
      emptyModules]
  simp only [calculateHTTPSEdgesFromIngress, hstore, List.foldl_cons,
    List.foldl_nil, addIngressRoutes, hmods, hpol, addRuleRoutes, hrules]
  simp only [alLookup, eq_self_iff_true, if_true, emptyModules, List.foldl_cons,
    List.foldl_nil]
  simp only [addPathRoute, hmt1, hmt2, hb1, hb2, hres1, hres2]
  refine ⟨_, alLookup_alInsert_self _ _ _, ?_, ?_, ?_⟩
  · simp [scaffoldEdge, marshalPolicy]
  · simp [mkRoute, hdup]
  · rfl

/-- Witness for claim C8 at concrete inputs: an ingress repeating the same
Prefix path twice yields an edge whose route list keeps both identical
(match, matchType) occurrences. -/
theorem duplicate_routes_both_kept_witness :
    ∃ e, alLookup
        (calculateHTTPSEdges cfgW storeDup (calculateDomains cfgW storeDup).2)
        ("foo.example.com") = some e ∧
      e.spec.routes.length = 2 ∧
      e.spec.routes.map (fun r => (r.routeMatch, r.routeMatchType)) =
        [("/api", "path_prefix"), ("/api", "path_prefix")] := by
  obtain ⟨e, h1, h2, h3, h4⟩ := duplicate_routes_both_kept cfgW storeDup ingDup
    ("foo.example.com") pathW pathW backendW backendW ("path_prefix")
    ("su") ("su") 8080 8080 rfl rfl rfl rfl (by decide) rfl rfl rfl rfl
    rfl rfl rfl
  refine ⟨e, h1, ?_, ?_⟩
  · rw [h2]
    rfl
  · rw [h2]
    rfl

/-! ## Order lemmas for the owner-UID comparison -/

theorem charListLt_asymm : ∀ as bs : List Char,
    charListLt as bs = true → charListLt bs as = false := by
  intro as
  induction as with
  | nil =>
    intro bs h
    cases bs with
    | nil => simp [charListLt] at h
    | cons b bs => rfl
  | cons a as ih =>
    intro bs h
    cases bs with
    | nil => simp [charListLt] at h
    | cons b bs =>
      simp only [charListLt] at h ⊢
      by_cases hab : a.toNat < b.toNat
      · rw [if_neg (Nat.lt_asymm hab), if_pos hab]
      · by_cases hba : b.toNat < a.toNat
        · rw [if_neg hab, if_pos hba] at h
          exact absurd h (by simp)
        · rw [if_neg hab, if_neg hba] at h
          rw [if_neg hba, if_neg hab]
          exact ih bs h

theorem charListLt_eq_of_not_lt : ∀ as bs : List Char,
    charListLt as bs = false → charListLt bs as = false → as = bs := by
  intro as
  induction as with
  | nil =>
    intro bs h1 h2
    cases bs with
    | nil => rfl
    | cons b bs => simp [charListLt] at h1
  | cons a as ih =>
    intro bs h1 h2
    cases bs with
    | nil => simp [charListLt] at h2
    | cons b bs =>
      simp only [charListLt] at h1 h2
      by_cases hab : a.toNat < b.toNat
      · rw [if_pos hab] at h1
        exact absurd h1 (by simp)
      · by_cases hba : b.toNat < a.toNat
        · rw [if_pos hba] at h2
          exact absurd h2 (by simp)
        · rw [if_neg hab, if_neg hba] at h1
          rw [if_neg hba, if_neg hab] at h2
          have hchar : a = b :=
            Char.ext (UInt32.ext (Nat.le_antisymm
              (Nat.le_of_not_lt hba) (Nat.le_of_not_lt hab)))
          rw [hchar, ih bs h1 h2]

theorem uidLe_total (a b : String) (h : uidLe a b = false) : uidLe b a = true := by
  have h2 : charListLt b.data a.data = true := by
    simpa [uidLe] using h
  simp [uidLe, charListLt_asymm _ _ h2]

theorem uidLe_antisymm (a b : String) (h1 : uidLe a b = true)
    (h2 : uidLe b a = true) : a = b := by
  have g1 : charListLt b.data a.data = false := by
    simpa [uidLe] using h1
  have g2 : charListLt a.data b.data = false := by
    simpa [uidLe] using h2
  have hdata := charListLt_eq_of_not_lt a.data b.data g2 g1
  cases a
  cases b
  simp only at hdata
  rw [hdata]

/-- Claim C2 (amended): given two single-path ingresses with distinct UIDs
whose backends resolve to the same service port entry (identical resolved
tuple: service UID, port, protocol, app protocol) in the same namespace, the
tunnel calculator produces exactly one tunnel at the identity key
(namespace, service, port), carrying both owner references sorted ascending by
owner UID, the same regardless of the order in which the two ingresses are
processed; and a path whose owner UID is already present on the tunnel
re-inserts the tunnel unchanged rather than appending the reference again. -/
theorem tunnel_calculator_one_tunnel_sorted (cfg : DriverConfig)
    (services : List Service) (i1 i2 : Ingress) (hst1 hst2 : String)
    (p1 p2 : HTTPIngressPath) (b1 b2 : IngressServiceBackend)
    (suid : String) (port : Int) (protocol appProtocol : String)
    (hr1 : i1.rules = [{ host := hst1, paths := [p1] }])
    (hr2 : i2.rules = [{ host := hst2, paths := [p2] }])
    (hb1 : p1.backend = some b1) (hb2 : p2.backend = some b2)
    (hns : i2.namesp = i1.namesp)
    (hsvc : b2.name = b1.name)
    (hres1 : getTunnelBackend services b1 i1.namesp =
      Except.ok (suid, port, protocol, appProtocol))
    (hres2 : getTunnelBackend services b2 i1.namesp =
      Except.ok (suid, port, protocol, appProtocol))
    (huid : ¬(i1.uid = i2.uid)) :
    ∃ t, calculateTunnelsFromIngress cfg services [i1, i2] [] =
        [({ namesp := i1.namesp, service := b1.name, port := toString port }, t)] ∧
      calculateTunnelsFromIngress cfg services [i2, i1] [] =
        [({ namesp := i1.namesp, service := b1.name, port := toString port }, t)] ∧
      t.ownerReferences =
        (if uidLe i1.uid i2.uid then [mkOwnerRef i1, mkOwnerRef i2]
         else [mkOwnerRef i2, mkOwnerRef i1]) ∧
      (∀ (tunnels : List (TunnelKey × Tunnel)) (t0 : Tunnel),
        alLookup tunnels
          { namesp := i1.namesp, service := b1.name, port := toString port } =
            some t0 →
        t0.ownerReferences.any (fun r => r.uid = i1.uid) = true →
        tunnelPathStep cfg services i1 tunnels p1 =
          alInsert tunnels
            { namesp := i1.namesp, service := b1.name, port := toString port } t0) := by
  refine ⟨{ mkTunnel cfg i1.namesp b1.name suid port protocol appProtocol with
      ownerReferences :=
        if uidLe i1.uid i2.uid then [mkOwnerRef i1, mkOwnerRef i2]
        else [mkOwnerRef i2, mkOwnerRef i1] }, ?_, ?_, rfl, ?_⟩
  · simp only [calculateTunnelsFromIngress, List.foldl_cons, List.foldl_nil,
      hr1, hr2, tunnelPathStep, hb1, hb2, hns, hsvc, hres1, hres2]
    simp [alLookup, alInsert, sortRefsByUID, insertRefByUID, mkTunnel,
      mkOwnerRef, huid]
  · simp only [calculateTunnelsFromIngress, List.foldl_cons, List.foldl_nil,
      hr1, hr2, tunnelPathStep, hb1, hb2, hns, hsvc, hres1, hres2]
    simp only [alLookup, alInsert, sortRefsByUID, insertRefByUID, mkTunnel,
      mkOwnerRef, List.foldl_cons, List.foldl_nil]
    simp [huid, Ne.symm huid, insertRefByUID]
    cases hle : uidLe i1.uid i2.uid with
    | false =>
      have h21 := uidLe_total _ _ hle
      simp [h21, hle, insertRefByUID]
    | true =>
      have h21 : uidLe i2.uid i1.uid = false := by
        cases h2 : uidLe i2.uid i1.uid
        · rfl
        · exact absurd (uidLe_antisymm _ _ hle h2) huid
      simp [h21, hle, insertRefByUID]
  · intro tunnels t0 hlook hany
    simp only [tunnelPathStep, hb1, hres1, hlook, hany, if_true]

/-- Witness for claim C2 (amended) at concrete inputs: two ingresses with UIDs
u1 and u2 sharing one backend produce, in either processing order, the single
tunnel keyed (ns, svc, 8080) carrying both owner references in ascending UID
order. -/
theorem tunnel_calculator_one_tunnel_sorted_witness :
    ∃ t, calculateTunnelsFromIngress cfgW [svcW] [ingTun1, ingTun2] [] =
        [({ namesp := "ns", service := "svc", port := "8080" }, t)] ∧
      calculateTunnelsFromIngress cfgW [svcW] [ingTun2, ingTun1] [] =
        [({ namesp := "ns", service := "svc", port := "8080" }, t)] ∧
      t.ownerReferences = [mkOwnerRef ingTun1, mkOwnerRef ingTun2] := by
  obtain ⟨t, hA, hB, hrefs, _⟩ := tunnel_calculator_one_tunnel_sorted cfgW
    [svcW] ingTun1 ingTun2 ("h1.example.com") ("h2.example.com") pathW pathW
    backendW backendW ("su") 8080 ("HTTP") ("") rfl rfl rfl rfl rfl rfl rfl rfl
    (by decide)
  refine ⟨t, hA, hB, ?_⟩
  rw [hrefs, if_pos (by decide)]

/-- Counterexample to claim C2 as stated: two ingress paths can resolve to the
same (namespace, service, port) identity key — via two identically numbered
named ports of one service, only one of them protocol-annotated — yet yield a
tunnel that depends on the processing order, since the created tunnel keeps the
protocol of whichever path was processed first. -/
theorem tunnel_calculator_counterexample :
    getTunnelBackend [svcTwoPorts]
      { name := "svc2", port := { name := "a", number := 0 } } ("ns") =
      Except.ok ("s2", 8080, "HTTPS", "") ∧
    getTunnelBackend [svcTwoPorts]
      { name := "svc2", port := { name := "b", number := 0 } } ("ns") =
      Except.ok ("s2", 8080, "HTTP", "") ∧
    ingPortA.namesp = ingPortB.namesp ∧
    calculateTunnelsFromIngress cfgW [svcTwoPorts] [ingPortA, ingPortB] [] ≠
      calculateTunnelsFromIngress cfgW [svcTwoPorts] [ingPortB, ingPortA] [] :=
  ⟨rfl, rfl, rfl, by decide⟩
